import Mathlib

/-!
Shallow embedding of the json-validator-typescript-action core
(src/src/main.ts) for checking its natural-language specification.

Conventions of the embedding:
- the Node filesystem is a finite association list from absolute path to
  file content; `readFile` models `fs.readFileSync` (missing file raises,
  modelled as `Except.error`), `existsSync` models `fs.existsSync`;
- `JSON.parse` is modelled by `jsonParse`, an executable JSON reader over
  the character list of the input (numbers are modelled as integers; the
  parse-failure message is a single descriptive string containing the word
  JSON, standing in for the varied Node messages);
- Node `path.dirname` / `path.resolve` are modelled for POSIX paths with
  an absolute base directory, which is the only way this program uses them
  (discovered document paths are absolute);
- the ajv library is modelled by a small JSON-Schema evaluator over a
  constraint AST (`Schema`), with an `allErrors` flag reproducing the
  collect-all-violations versus stop-at-first distinction, and `ajvCompile`
  turning a parsed schema document into a compiled validator (failing on
  forms ajv rejects, such as a non-object non-boolean root);
- the GitHub Actions input channel `core.getInput` is an association list
  of input names to values, returning the empty string for absent inputs.
-/

/-- Untyped JSON values, as produced by JSON.parse. -/
inductive Json where
  | null : Json
  | bool (b : Bool) : Json
  | num (n : Int) : Json
  | str (s : String) : Json
  | arr (elems : List Json) : Json
  | obj (fields : List (String × Json)) : Json

/-- Last-wins field lookup, matching how JSON.parse materializes duplicate
keys into a JavaScript object. -/
def lookupField (fields : List (String × Json)) (key : String) : Option Json :=
  match fields.reverse.find? (fun kv => kv.1 == key) with
  | some kv => some kv.2
  | none => none

/-- Skip JSON whitespace. -/
def skipWs : List Char → List Char
  | [] => []
  | c :: cs => if c == ' ' || c == '\n' || c == '\t' || c == '\r' then skipWs cs else c :: cs

/-- Read the body of a JSON string literal after the opening quote, returning
the decoded characters and the remaining input after the closing quote. -/
def parseStrChars : Nat → List Char → Option (List Char × List Char)
  | 0, _ => none
  | _, [] => none
  | fuel + 1, c :: cs =>
    if c == '"' then some ([], cs)
    else if c == '\\' then
      match cs with
      | [] => none
      | e :: cs2 =>
        let ec : Option Char :=
          if e == '"' then some '"'
          else if e == '\\' then some '\\'
          else if e == '/' then some '/'
          else if e == 'n' then some '\n'
          else if e == 't' then some '\t'
          else if e == 'r' then some '\r'
          else none
        match ec with
        | none => none
        | some ch =>
          match parseStrChars fuel cs2 with
          | none => none
          | some (s, rest) => some (ch :: s, rest)
    else
      match parseStrChars fuel cs with
      | none => none
      | some (s, rest) => some (c :: s, rest)

/-- Leading decimal digits of the input, and the rest. -/
def takeDigits : List Char → List Char × List Char
  | [] => ([], [])
  | c :: cs =>
    if c.isDigit then
      let (ds, rest) := takeDigits cs
      (c :: ds, rest)
    else ([], c :: cs)

/-- Decimal value of a digit list. -/
def digitsVal (ds : List Char) : Nat :=
  ds.foldl (fun n c => n * 10 + (c.toNat - 48)) 0

/-- Read a JSON number (modelled as an integer; fractional and exponent
forms are out of scope of the model and fail the parse). -/
def parseNumFrom (cs : List Char) : Option (Json × List Char) :=
  let (neg, cs1) : Bool × List Char :=
    match cs with
    | '-' :: rest => (true, rest)
    | _ => (false, cs)
  match takeDigits cs1 with
  | ([], _) => none
  | (ds, rest) =>
    match rest with
    | '.' :: _ => none
    | 'e' :: _ => none
    | 'E' :: _ => none
    | _ =>
      let n : Int := Int.ofNat (digitsVal ds)
      some (.num (if neg then -n else n), rest)

mutual

/-- Read one JSON value. Fuel-indexed recursion; the caller supplies enough
fuel for the input length. -/
def parseVal : Nat → List Char → Option (Json × List Char)
  | 0, _ => none
  | fuel + 1, cs0 =>
    match skipWs cs0 with
    | [] => none
    | 'n' :: 'u' :: 'l' :: 'l' :: rest => some (.null, rest)
    | 't' :: 'r' :: 'u' :: 'e' :: rest => some (.bool true, rest)
    | 'f' :: 'a' :: 'l' :: 's' :: 'e' :: rest => some (.bool false, rest)
    | '"' :: rest =>
      match parseStrChars fuel rest with
      | some (s, rest2) => some (.str (String.mk s), rest2)
      | none => none
    | '[' :: rest =>
      match skipWs rest with
      | ']' :: rest2 => some (.arr [], rest2)
      | rest2 =>
        match parseElems fuel rest2 with
        | some (xs, rest3) => some (.arr xs, rest3)
        | none => none
    | '{' :: rest =>
      match skipWs rest with
      | '}' :: rest2 => some (.obj [], rest2)
      | rest2 =>
        match parseFields fuel rest2 with
        | some (fs, rest3) => some (.obj fs, rest3)
        | none => none
    | c :: rest =>
      if c == '-' || c.isDigit then parseNumFrom (c :: rest) else none

/-- Read the comma-separated elements of a non-empty JSON array, including
the closing bracket. -/
def parseElems : Nat → List Char → Option (List Json × List Char)
  | 0, _ => none
  | fuel + 1, cs =>
    match parseVal fuel cs with
    | none => none
    | some (v, rest) =>
      match skipWs rest with
      | ',' :: rest2 =>
        match parseElems fuel rest2 with
        | some (vs, rest3) => some (v :: vs, rest3)
        | none => none
      | ']' :: rest2 => some ([v], rest2)
      | _ => none

/-- Read the members of a non-empty JSON object, including the closing
brace. -/
def parseFields : Nat → List Char → Option (List (String × Json) × List Char)
  | 0, _ => none
  | fuel + 1, cs =>
    match skipWs cs with
    | '"' :: rest =>
      match parseStrChars fuel rest with
      | none => none
      | some (k, rest2) =>
        match skipWs rest2 with
        | ':' :: rest3 =>
          match parseVal fuel rest3 with
          | none => none
          | some (v, rest4) =>
            match skipWs rest4 with
            | ',' :: rest5 =>
              match parseFields fuel rest5 with
              | some (fs, rest6) => some ((String.mk k, v) :: fs, rest6)
              | none => none
            | '}' :: rest5 => some ([(String.mk k, v)], rest5)
            | _ => none
        | _ => none
    | _ => none

end

/-- Model of JSON.parse: reads a full JSON document, requiring the whole
input to be consumed (up to trailing whitespace). -/
def jsonParse (s : String) : Except String Json :=
  match parseVal (2 * s.toList.length + 2) s.toList with
  | some (j, rest) =>
    match skipWs rest with
    | [] => Except.ok j
    | _ => Except.error "Unexpected non-whitespace character after JSON data"
  | none => Except.error "Unexpected token, the input is not valid JSON"

/-- Whether the first character list begins with the second. -/
def charsStarts : List Char → List Char → Bool
  | _, [] => true
  | [], _ :: _ => false
  | c :: cs, d :: ds => c == d && charsStarts cs ds

/-- Model of the JavaScript String startsWith method. -/
def strStarts (s pre : String) : Bool :=
  charsStarts s.toList pre.toList

/-- Whether a string ends with the given suffix (the *.json glob test). -/
def strEnds (s suf : String) : Bool :=
  charsStarts s.toList.reverse suf.toList.reverse

/-- Split accumulated characters on slashes. -/
def splitSlashAux : List Char → List Char → List String
  | acc, [] => [String.mk acc.reverse]
  | acc, c :: cs =>
    if c == '/' then String.mk acc.reverse :: splitSlashAux [] cs
    else splitSlashAux (c :: acc) cs

/-- Split a path string on slash separators. -/
def splitSlash (s : String) : List String :=
  splitSlashAux [] s.toList

/-- Path segments of a POSIX path (empty and single-dot segments dropped). -/
def pathSegs (p : String) : List String :=
  (splitSlash p).filter (fun s => s != "" && s != ".")

/-- Normalize segments, interpreting single and double dots. -/
def normSegs (segs : List String) : List String :=
  segs.foldl
    (fun acc s =>
      if s == "" || s == "." then acc
      else if s == ".." then acc.dropLast
      else acc ++ [s])
    []

/-- Model of Node path.resolve for an absolute base directory (the only use
in this program: document paths produced by discovery are absolute). -/
def pathResolve (dir ref : String) : String :=
  let full := if strStarts ref "/" then ref else dir ++ "/" ++ ref
  "/" ++ String.intercalate "/" (normSegs (splitSlash full))

/-- Model of Node path.dirname for POSIX paths. -/
def pathDirname (p : String) : String :=
  let segs := (splitSlash p).filter (fun s => s != "")
  if strStarts p "/" then
    match segs.dropLast with
    | [] => "/"
    | ss => "/" ++ String.intercalate "/" ss
  else
    match segs.dropLast with
    | [] => "."
    | ss => String.intercalate "/" ss

/-- The filesystem: a finite map from absolute file path to text content. -/
abbrev FileSys := List (String × String)

/-- Model of fs.readFileSync: content on success, an ENOENT-style error for
a missing file. -/
def readFile (fs : FileSys) (p : String) : Except String String :=
  match fs.find? (fun kv => kv.1 == p) with
  | some kv => Except.ok kv.2
  | none => Except.error ("ENOENT: no such file or directory, open " ++ p)

/-- Model of fs.existsSync. -/
def existsSync (fs : FileSys) (p : String) : Bool :=
  (fs.find? (fun kv => kv.1 == p)).isSome

/-- The GitHub Actions input channel: association list of input names to
values. -/
abbrev Inputs := List (String × String)

/-- Model of core.getInput: the bound value, or the empty string when the
input is absent. -/
def getInput (inputs : Inputs) (name : String) : String :=
  match inputs.find? (fun kv => kv.1 == name) with
  | some kv => kv.2
  | none => ""

/-- JSON type tags as used by the schema `type` keyword. -/
inductive JsonType where
  | tNull | tBoolean | tNumber | tString | tArray | tObject
deriving DecidableEq

/-- The JSON type of a value. -/
def jsonTypeOf : Json → JsonType
  | .null => .tNull
  | .bool _ => .tBoolean
  | .num _ => .tNumber
  | .str _ => .tString
  | .arr _ => .tArray
  | .obj _ => .tObject

/-- Keyword name of a JSON type, for violation messages. -/
def typeName : JsonType → String
  | .tNull => "null"
  | .tBoolean => "boolean"
  | .tNumber => "number"
  | .tString => "string"
  | .tArray => "array"
  | .tObject => "object"

/-- One ajv violation: the instance location inside the document and a
human-readable message. -/
structure AjvError where
  instancePath : String
  message : String
deriving DecidableEq

/-- Compiled-schema constraint AST of the ajv model. -/
inductive Schema where
  | triv : Schema
  | typeIs (t : JsonType) : Schema
  | required (name : String) : Schema
  | minimum (n : Int) : Schema
  | maximum (n : Int) : Schema
  | prop (name : String) (s : Schema) : Schema
  | and (a b : Schema) : Schema
deriving DecidableEq

/-- Evaluate a schema at an instance location, collecting every violation
in order. This is the collect-all core of the ajv model. -/
def evalSchema (ipath : String) (s : Schema) (j : Json) : List AjvError :=
  match s with
  | .triv => []
  | .typeIs t =>
    if jsonTypeOf j = t then [] else [⟨ipath, "must be " ++ typeName t⟩]
  | .required name =>
    match j with
    | .obj fields =>
      if (lookupField fields name).isSome then []
      else [⟨ipath, "must have required property " ++ name⟩]
    | _ => []
  | .minimum n =>
    match j with
    | .num m => if m < n then [⟨ipath, "must be >= " ++ toString n⟩] else []
    | _ => []
  | .maximum n =>
    match j with
    | .num m => if n < m then [⟨ipath, "must be <= " ++ toString n⟩] else []
    | _ => []
  | .prop name s =>
    match j with
    | .obj fields =>
      match lookupField fields name with
      | some v => evalSchema (ipath ++ "/" ++ name) s v
      | none => []
    | _ => []
  | .and a b => evalSchema ipath a j ++ evalSchema ipath b j

/-- A compiled ajv validator: the allErrors option of the Ajv instance it
was compiled by, and the compiled constraint tree. -/
structure CompiledValidator where
  allErrors : Bool
  schema : Schema
deriving DecidableEq

/-- Model of calling a compiled ajv validate function: the violation list,
complete when the instance was compiled with allErrors, truncated to the
first violation otherwise. The boolean result of ajv corresponds to this
list being empty. -/
def runValidator (v : CompiledValidator) (data : Json) : List AjvError :=
  let errs := evalSchema "" v.schema data
  if v.allErrors then errs else errs.take 1

/-- Compile the `required` keyword value. -/
def reqOfList : List Json → Option Schema
  | [] => some .triv
  | .str n :: rest => (reqOfList rest).map (fun r => .and (.required n) r)
  | _ :: _ => none

/-- Name of a schema `type` keyword value. -/
def parseTypeName (t : String) : Option JsonType :=
  if t == "object" then some .tObject
  else if t == "string" then some .tString
  else if t == "number" then some .tNumber
  else if t == "integer" then some .tNumber
  else if t == "boolean" then some .tBoolean
  else if t == "array" then some .tArray
  else if t == "null" then some .tNull
  else none

mutual

/-- Compile a parsed schema document into the constraint AST. Supported
keywords: type, required, minimum, maximum, properties; the boolean schema
true; malformed keyword values and non-object non-boolean roots fail, as
ajv compilation does. -/
def schemaOfJson : Nat → Json → Option Schema
  | 0, _ => none
  | _ + 1, .bool true => some .triv
  | fuel + 1, .obj fields =>
    let tPart : Option Schema :=
      match lookupField fields "type" with
      | none => some .triv
      | some (.str t) => (parseTypeName t).map Schema.typeIs
      | some _ => none
    let reqPart : Option Schema :=
      match lookupField fields "required" with
      | none => some .triv
      | some (.arr names) => reqOfList names
      | some _ => none
    let minPart : Option Schema :=
      match lookupField fields "minimum" with
      | none => some .triv
      | some (.num n) => some (.minimum n)
      | some _ => none
    let maxPart : Option Schema :=
      match lookupField fields "maximum" with
      | none => some .triv
      | some (.num n) => some (.maximum n)
      | some _ => none
    let propsPart : Option Schema :=
      match lookupField fields "properties" with
      | none => some .triv
      | some (.obj props) => propsOfJson fuel props
      | some _ => none
    match tPart, reqPart, minPart, maxPart, propsPart with
    | some a, some b, some c, some d, some e =>
      some (.and a (.and b (.and c (.and d e))))
    | _, _, _, _, _ => none
  | _ + 1, _ => none

/-- Compile the members of a `properties` object. -/
def propsOfJson : Nat → List (String × Json) → Option Schema
  | 0, _ => none
  | _ + 1, [] => some .triv
  | fuel + 1, (name, pj) :: rest =>
    match schemaOfJson fuel pj, propsOfJson fuel rest with
    | some s, some r => some (.and (.prop name s) r)
    | _, _ => none

end

mutual

/-- Structural size of a JSON value, used as compilation fuel. -/
def jsonSize : Json → Nat
  | .null => 1
  | .bool _ => 1
  | .num _ => 1
  | .str _ => 1
  | .arr es => 1 + jsonSizeList es
  | .obj fs => 1 + jsonSizeFields fs

/-- Structural size of a list of JSON values. -/
def jsonSizeList : List Json → Nat
  | [] => 1
  | j :: rest => 1 + jsonSize j + jsonSizeList rest

/-- Structural size of JSON object members. -/
def jsonSizeFields : List (String × Json) → Nat
  | [] => 1
  | (_, j) :: rest => 1 + jsonSize j + jsonSizeFields rest

end

/-- Model of new Ajv then ajv.compile: produce a compiled validator
carrying the allErrors option, or fail as ajv compilation fails. -/
def ajvCompile (allErrors : Bool) (schemaJson : Json) : Except String CompiledValidator :=
  match schemaOfJson (jsonSize schemaJson) schemaJson with
  | some s => Except.ok ⟨allErrors, s⟩
  | none => Except.error "schema is invalid"

/-- Per-file result record of the action (interface ValidationResult in
src/src/main.ts): the error field is present only for invalid files. -/
structure ValidationResult where
  valid : Bool
  file : String
  error : Option String
deriving DecidableEq

/-- The four hardcoded exclusion directories of findJsonFiles. -/
def ignoreDirs : List String := ["node_modules", "dist", "lib", ".git"]

/-- Relative segments of a path under a root, or none when the path is not
under the root. -/
def relSegsUnder : List String → List String → Option (List String)
  | [], rest => some rest
  | _ :: _, [] => none
  | a :: as, b :: bs => if a = b then relSegsUnder as bs else none

/-- Embeds findJsonFiles (src/src/main.ts lines 17 to 28): all files under
path.join(cwd, folder) whose name matches *.json, excluding any whose
relative path has one of the hardcoded ignore directories as a non-final
segment (the fast-glob patterns of the source). The source takes only the
folder; the process filesystem and working directory are explicit here. -/
def findJsonFiles (fs : FileSys) (cwd : String) (folder : String) : List String :=
  let searchPath := pathResolve cwd folder
  (fs.map (fun kv => kv.1)).filter (fun p =>
    match relSegsUnder (pathSegs searchPath) (pathSegs p) with
    | none => false
    | some rel =>
      match rel with
      | [] => false
      | _ =>
        strEnds p ".json" && !(rel.dropLast.any (fun s => ignoreDirs.contains s)))

/-- Embeds extractSchemaFromJson (src/src/main.ts lines 33 to 52): parse the
content; when the root is an object whose dollar-schema member is a string,
return none for http or https URLs and otherwise the value resolved against
the directory of the document; any parse failure yields none. -/
def extractSchemaFromJson (content : String) (filePath : String) : Option String :=
  match jsonParse content with
  | .error _ => none
  | .ok data =>
    match data with
    | .obj fields =>
      match lookupField fields "$schema" with
      | some (.str schemaRef) =>
        if strStarts schemaRef "http://" || strStarts schemaRef "https://" then none
        else some (pathResolve (pathDirname filePath) schemaRef)
      | _ => none
    | _ => none

/-- Embeds validateJsonSyntax (src/src/main.ts lines 57 to 66): read and
parse; any failure of either step is caught and returned as an invalid
result carrying the failure message. -/
def validateJsonSyntax (fs : FileSys) (filePath : String) : ValidationResult :=
  match readFile fs filePath with
  | .error e => ⟨false, filePath, some e⟩
  | .ok content =>
    match jsonParse content with
    | .error e => ⟨false, filePath, some e⟩
    | .ok _ => ⟨true, filePath, none⟩

/-- Embeds loadSchema (src/src/main.ts lines 71 to 78): read and parse the
schema file, wrapping any failure in a message naming the path. -/
def loadSchema (fs : FileSys) (schemaPath : String) : Except String Json :=
  match readFile fs schemaPath with
  | .error e => Except.error ("Failed to load schema from " ++ schemaPath ++ ": " ++ e)
  | .ok content =>
    match jsonParse content with
    | .error e => Except.error ("Failed to load schema from " ++ schemaPath ++ ": " ++ e)
    | .ok j => Except.ok j

/-- One formatted ajv violation, instance location then message, as in
src/src/main.ts line 94. -/
def formatError (e : AjvError) : String :=
  e.instancePath ++ " " ++ e.message

/-- JavaScript Array.join with a comma-space separator. -/
def joinWithComma : List String → String
  | [] => ""
  | [x] => x
  | x :: y :: rest => x ++ ", " ++ joinWithComma (y :: rest)

/-- The error string of a failed schema validation: formatted violations
joined by comma-space, with the falsy-fallback of the source (lines 93 to
95) when the join is empty. -/
def joinErrors (errs : List AjvError) : String :=
  let s := joinWithComma (errs.map formatError)
  if s == "" then "Unknown validation error" else s

/-- Embeds validateJsonSchema (src/src/main.ts lines 83 to 104): read and
parse the document (failures caught into an invalid result), then run the
compiled validator; valid exactly when no violation, otherwise the joined
violation string. -/
def validateJsonSchema (fs : FileSys) (filePath : String) (v : CompiledValidator) :
    ValidationResult :=
  match readFile fs filePath with
  | .error e => ⟨false, filePath, some e⟩
  | .ok content =>
    match jsonParse content with
    | .error e => ⟨false, filePath, some e⟩
    | .ok data =>
      let errs := runValidator v data
      if errs = [] then ⟨true, filePath, none⟩
      else ⟨false, filePath, some (joinErrors errs)⟩

/-- Embeds the per-file validator choice of run (src/src/main.ts lines 145
to 161): the global validator when present; otherwise read the document,
extract its declared schema path, and when that path exists load and
compile it, any failure being swallowed by the try-catch of the source.
Returns the chosen validator and the list of schema paths compiled by this
step (the ajv.compile call at line 156). -/
def selectValidator (fs : FileSys) (globalValidate : Option CompiledValidator)
    (file : String) : Option CompiledValidator × List String :=
  match globalValidate with
  | some v => (some v, [])
  | none =>
    match readFile fs file with
    | .error _ => (none, [])
    | .ok content =>
      match extractSchemaFromJson content file with
      | none => (none, [])
      | some fileSchemaPath =>
        if existsSync fs fileSchemaPath then
          match loadSchema fs fileSchemaPath with
          | .error _ => (none, [])
          | .ok schemaJson =>
            match ajvCompile true schemaJson with
            | .error _ => (none, [])
            | .ok v => (some v, [fileSchemaPath])
        else (none, [])

/-- Embeds one iteration of the validation loop of run (src/src/main.ts
lines 141 to 170): choose the validator for the file, then validate against
it, or check syntax only when there is none. -/
def processFile (fs : FileSys) (gv : Option CompiledValidator) (file : String) :
    ValidationResult × List String :=
  let sel := selectValidator fs gv file
  let result :=
    match sel.1 with
    | some v => validateJsonSchema fs file v
    | none => validateJsonSyntax fs file
  (result, sel.2)

/-- Observable outcome of one run: the setFailed message when the action
failed, the two outputs when they were set, the multiset of schema paths
passed to ajv.compile during the run, and the per-file results. -/
structure RunResult where
  failedMsg : Option String
  validOut : Option Nat
  invalidOut : Option Nat
  compilations : List String
  results : List ValidationResult
deriving DecidableEq

/-- Embeds the tail of run after discovery (src/src/main.ts lines 140 to
198): validate every file, partition, set the outputs, and call setFailed
exactly when there are invalid files. -/
def finishRun (fs : FileSys) (files : List String) (gv : Option CompiledValidator)
    (comps0 : List String) : RunResult :=
  let steps := files.map (processFile fs gv)
  let results := steps.map (fun st => st.1)
  let comps := comps0 ++ (steps.map (fun st => st.2)).flatten
  let invalidCount := (results.filter (fun r => !r.valid)).length
  let validCount := (results.filter (fun r => r.valid)).length
  ⟨if invalidCount > 0 then
     some ("Found " ++ toString invalidCount ++ " invalid JSON file(s)")
   else none,
   some validCount, some invalidCount, comps, results⟩

/-- The effective folder input of run (line 112): the folder input, or a
dot when it is empty. -/
def effFolder (inputs : Inputs) : String :=
  let f := getInput inputs "folder"
  if f = "" then "." else f

/-- Embeds run (src/src/main.ts lines 109 to 203). Only the folder and
schema inputs are read by the source. Zero discovered files set both
outputs to zero and return early. A non-empty schema input loads and
compiles the global schema before the loop; a failure there propagates to
the top-level catch, which calls setFailed without setting outputs. The
Ajv instances of the source are constructed with allErrors true (lines 134
and 154). -/
def run (fs : FileSys) (cwd : String) (inputs : Inputs) : RunResult :=
  let folder := effFolder inputs
  let schemaPath := getInput inputs "schema"
  let jsonFiles := findJsonFiles fs cwd folder
  if jsonFiles.length = 0 then
    ⟨none, some 0, some 0, [], []⟩
  else
    if schemaPath = "" then
      finishRun fs jsonFiles none []
    else
      match loadSchema fs schemaPath with
      | .error e => ⟨some ("Action failed: " ++ e), none, none, [], []⟩
      | .ok schemaJson =>
        match ajvCompile true schemaJson with
        | .error e => ⟨some ("Action failed: " ++ e), none, none, [], []⟩
        | .ok v => finishRun fs jsonFiles (some v) [schemaPath]

/-- Every error produced by the readFile model is a non-empty message. -/
theorem readFile_error_ne (fs : FileSys) (p e : String)
    (h : readFile fs p = Except.error e) : e ≠ "" := by
  unfold readFile at h
  cases hf : fs.find? (fun kv => kv.1 == p) with
  | some kv => rw [hf] at h; cases h
  | none =>
    rw [hf] at h
    cases h
    intro hcontra
    have hlen := congrArg String.length hcontra
    rw [String.length_append] at hlen
    have h40 : String.length "ENOENT: no such file or directory, open " = 40 := by decide
    have h0 : String.length "" = 0 := by decide
    rw [h40, h0] at hlen
    omega

/-- Every error produced by the jsonParse model is a non-empty message. -/
theorem jsonParse_error_ne (s e : String)
    (h : jsonParse s = Except.error e) : e ≠ "" := by
  unfold jsonParse at h
  split at h
  · split at h
    · cases h
    · cases h
      decide
  · cases h
    decide

/-- C4: When a non-empty global schema is provided (the run holds a
compiled global validator), the per-document schema choice is the global
validator unconditionally, no per-document compilation happens, the choice
is independent of the filesystem (so the content of the document is never
inspected for schema resolution), and the document is validated against
the global validator. -/
theorem selectValidator_global_precedence (fs fs2 : FileSys) (v : CompiledValidator)
    (file : String) :
    selectValidator fs (some v) file = (some v, []) ∧
    selectValidator fs (some v) file = selectValidator fs2 (some v) file ∧
    processFile fs (some v) file = (validateJsonSchema fs file v, []) :=
  ⟨rfl, rfl, rfl⟩

/-- C5: For a document whose parsed root is an object carrying a string
dollar-schema member that is neither an http nor an https URL, schema
extraction returns exactly that member value resolved against the directory
containing the document, and the result is an absolute path. -/
theorem extractSchemaFromJson_resolves_relative
    (content filePath s : String) (fields : List (String × Json))
    (hparse : jsonParse content = Except.ok (Json.obj fields))
    (hfield : lookupField fields "$schema" = some (Json.str s))
    (h1 : strStarts s "http://" = false)
    (h2 : strStarts s "https://" = false) :
    extractSchemaFromJson content filePath = some (pathResolve (pathDirname filePath) s) ∧
    ∃ rest, pathResolve (pathDirname filePath) s = "/" ++ rest := by
  constructor
  · unfold extractSchemaFromJson
    rw [hparse]
    simp only [hfield, h1, h2]
    rfl
  · exact ⟨_, rfl⟩

/-- Witness document content for C5, the example of the specification. -/
def contentC5 : String := "\x7b\"$schema\": \"./user.schema.json\"\x7d"

/-- C5 witness: a document at /a/b/doc.json declaring ./user.schema.json
resolves to /a/b/user.schema.json. -/
theorem extractSchemaFromJson_resolves_relative_witness :
    extractSchemaFromJson contentC5 "/a/b/doc.json" = some "/a/b/user.schema.json" := by
  have h := (extractSchemaFromJson_resolves_relative contentC5 "/a/b/doc.json"
    "./user.schema.json" [("$schema", Json.str "./user.schema.json")]
    (by rfl) (by rfl) (by decide) (by decide)).1
  rw [h]
  decide

/-- C6: A dollar-schema value that is an http or https URL makes schema
extraction return none; the extraction function is pure in the content
string and touches no filesystem, so no file access or error can result
from the URL. -/
theorem extractSchemaFromJson_url_returns_none
    (content filePath s : String) (fields : List (String × Json))
    (hparse : jsonParse content = Except.ok (Json.obj fields))
    (hfield : lookupField fields "$schema" = some (Json.str s))
    (hurl : strStarts s "http://" = true ∨ strStarts s "https://" = true) :
    extractSchemaFromJson content filePath = none := by
  unfold extractSchemaFromJson
  rw [hparse]
  rcases hurl with h | h <;> simp [hfield, h]

/-- Witness document content for C6. -/
def contentC6 : String := "\x7b\"$schema\": \"http://json-schema.org/draft-07/schema#\"\x7d"

/-- C6 witness: the draft-07 http meta-schema URL resolves to none. -/
theorem extractSchemaFromJson_url_returns_none_witness :
    extractSchemaFromJson contentC6 "/a/b/doc.json" = none :=
  extractSchemaFromJson_url_returns_none contentC6 "/a/b/doc.json"
    "http://json-schema.org/draft-07/schema#"
    [("$schema", Json.str "http://json-schema.org/draft-07/schema#")]
    (by rfl) (by rfl) (Or.inl (by decide))

/-- C7: The syntax check is a total function into result values (the
try-catch of the source never lets an exception escape): it reports valid
exactly when the read and the parse both succeed, always carries the
checked path, and every failure carries a non-empty descriptive error
string (an I/O failure message or a JSON parse failure message). -/
theorem validateJsonSyntax_total_result (fs : FileSys) (p : String) :
    ((validateJsonSyntax fs p).valid = true ↔
      ∃ c j, readFile fs p = Except.ok c ∧ jsonParse c = Except.ok j) ∧
    (validateJsonSyntax fs p).file = p ∧
    ((validateJsonSyntax fs p).valid = false →
      ∃ e, (validateJsonSyntax fs p).error = some e ∧ e ≠ "") := by
  cases hr : readFile fs p with
  | error e =>
    refine ⟨?_, ?_, ?_⟩
    · simp [validateJsonSyntax, hr]
    · simp [validateJsonSyntax, hr]
    · intro _
      exact ⟨e, by simp [validateJsonSyntax, hr], readFile_error_ne fs p e hr⟩
  | ok c =>
    cases hp : jsonParse c with
    | error e =>
      refine ⟨?_, ?_, ?_⟩
      · simp only [validateJsonSyntax, hr, hp]
        constructor
        · intro hcontra
          cases hcontra
        · rintro ⟨c2, j, hc2, hj⟩
          cases hc2
          rw [hp] at hj
          cases hj
      · simp [validateJsonSyntax, hr, hp]
      · intro _
        exact ⟨e, by simp [validateJsonSyntax, hr, hp], jsonParse_error_ne c e hp⟩
    | ok j =>
      refine ⟨?_, ?_, ?_⟩
      · constructor
        · intro _
          exact ⟨c, j, rfl, hp⟩
        · intro _
          simp [validateJsonSyntax, hr, hp]
      · simp [validateJsonSyntax, hr, hp]
      · intro hcontra
        simp [validateJsonSyntax, hr, hp] at hcontra

/-- C7 witness: on an empty filesystem the syntax check of a missing file
returns an invalid result with a non-empty error message instead of
raising. -/
theorem validateJsonSyntax_total_result_witness :
    ∃ e, (validateJsonSyntax ([] : FileSys) "/missing.json").error = some e ∧ e ≠ "" :=
  (validateJsonSyntax_total_result ([] : FileSys) "/missing.json").2.2 (by rfl)

/-- C8: For a document that reads and parses successfully, validated by a
validator compiled with allErrors (as both Ajv instances of the source
are), the result is valid exactly when the full violation list of the
schema evaluation is empty, and otherwise the error string is exactly the
violations, each formatted as instance location, space, message, joined by
comma-space over the complete list, not just the first violation. -/
theorem validateJsonSchema_collects_all_violations
    (fs : FileSys) (file : String) (v : CompiledValidator) (c : String) (j : Json)
    (hall : v.allErrors = true)
    (hread : readFile fs file = Except.ok c)
    (hparse : jsonParse c = Except.ok j) :
    ((validateJsonSchema fs file v).valid = true ↔ evalSchema "" v.schema j = []) ∧
    (validateJsonSchema fs file v).error =
      (if evalSchema "" v.schema j = [] then none
       else some (joinErrors (evalSchema "" v.schema j))) := by
  have hrv : runValidator v j = evalSchema "" v.schema j := by
    simp [runValidator, hall]
  by_cases he : evalSchema "" v.schema j = [] <;>
    simp [validateJsonSchema, hread, hparse, hrv, he]

/-- Witness filesystem for C8: a document violating two constraints. -/
def fsC8 : FileSys := [("/w/p.json", "\x7b\"price\": -5\x7d")]

/-- Witness validator for C8: requires a name member and a non-negative
price. -/
def vC8 : CompiledValidator :=
  ⟨true, Schema.and (.required "name") (.prop "price" (.minimum 0))⟩

/-- C8 witness: both violations appear in the error string, formatted and
joined as the source does. -/
theorem validateJsonSchema_collects_all_violations_witness :
    vC8.allErrors = true ∧
    (validateJsonSchema fsC8 "/w/p.json" vC8).valid = false ∧
    (validateJsonSchema fsC8 "/w/p.json" vC8).error =
      some " must have required property name, /price must be >= 0" := by
  have h := validateJsonSchema_collects_all_violations fsC8 "/w/p.json" vC8
    "\x7b\"price\": -5\x7d" (Json.obj [("price", Json.num (-5))]) rfl rfl rfl
  refine ⟨rfl, ?_, ?_⟩
  · cases hv : (validateJsonSchema fsC8 "/w/p.json" vC8).valid
    · rfl
    · exact absurd (h.1.mp hv) (by decide)
  · rw [h.2]
    decide

/-- C9: Without a global schema, a document declaring a schema path that
does not exist on the filesystem is neither an error nor a schema load
attempt: no compilation is recorded and the result for the document is
exactly the syntax-only check. -/
theorem missing_declared_schema_syntax_fallback
    (fs : FileSys) (file content p : String)
    (hread : readFile fs file = Except.ok content)
    (hextract : extractSchemaFromJson content file = some p)
    (hexists : existsSync fs p = false) :
    processFile fs none file = (validateJsonSyntax fs file, []) := by
  simp [processFile, selectValidator, hread, hextract, hexists]

/-- Witness filesystem for C9: the declared schema file is absent. -/
def fsC9 : FileSys := [("/w/d.json", "\x7b\"$schema\": \"./missing.schema.json\"\x7d")]

/-- C9 witness: the document falls back to the syntax check, which finds it
valid. -/
theorem missing_declared_schema_syntax_fallback_witness :
    processFile fsC9 none "/w/d.json" = (validateJsonSyntax fsC9 "/w/d.json", []) ∧
    (validateJsonSyntax fsC9 "/w/d.json").valid = true :=
  ⟨missing_declared_schema_syntax_fallback fsC9 "/w/d.json"
      "\x7b\"$schema\": \"./missing.schema.json\"\x7d" "/w/missing.schema.json"
      (by rfl) (by rfl) (by rfl),
   by rfl⟩

/-- C10: Without a global schema, when the declared schema path exists but
loading it fails (unreadable or invalid JSON) or compiling it fails, the
failure is swallowed by the try-catch of the source: no compilation is
recorded, the run continues, and the result for the document is exactly
the syntax-only check, as if no schema had been declared. -/
theorem broken_declared_schema_swallowed
    (fs : FileSys) (file content p : String)
    (hread : readFile fs file = Except.ok content)
    (hextract : extractSchemaFromJson content file = some p)
    (hexists : existsSync fs p = true)
    (hfail : (∃ e, loadSchema fs p = Except.error e) ∨
      (∃ sj e, loadSchema fs p = Except.ok sj ∧ ajvCompile true sj = Except.error e)) :
    processFile fs none file = (validateJsonSyntax fs file, []) := by
  rcases hfail with ⟨e, hl⟩ | ⟨sj, e, hl, hc⟩
  · simp [processFile, selectValidator, hread, hextract, hexists, hl]
  · simp [processFile, selectValidator, hread, hextract, hexists, hl, hc]

/-- Witness filesystem for C10: the declared schema file exists but its
content is not valid JSON. -/
def fsC10 : FileSys :=
  [("/w/d.json", "\x7b\"$schema\": \"./bad.schema.json\"\x7d"),
   ("/w/bad.schema.json", "\x7b")]

/-- C10 witness: the load failure of the broken schema is swallowed and the
document is validated by syntax only, coming out valid. -/
theorem broken_declared_schema_swallowed_witness :
    processFile fsC10 none "/w/d.json" = (validateJsonSyntax fsC10 "/w/d.json", []) ∧
    (validateJsonSyntax fsC10 "/w/d.json").valid = true :=
  ⟨broken_declared_schema_swallowed fsC10 "/w/d.json"
      "\x7b\"$schema\": \"./bad.schema.json\"\x7d" "/w/bad.schema.json"
      (by rfl) (by rfl) (by rfl)
      (Or.inl ⟨"Failed to load schema from /w/bad.schema.json: Unexpected token, the input is not valid JSON", by rfl⟩),
   by rfl⟩

/-- Filesystem in which two documents declare the same schema path. -/
def fsShared : FileSys :=
  [("/w/a.json", "\x7b\"$schema\": \"./s.json\"\x7d"),
   ("/w/b.json", "\x7b\"$schema\": \"./s.json\"\x7d"),
   ("/w/s.json", "\x7b\"type\": \"object\"\x7d")]

/-- C1 counterexample: with no global schema and two documents declaring
the identical schema path /w/s.json, the run compiles that one schema path
twice, once per document, refuting at-most-one compilation per distinct
schema path. -/
theorem run_compiles_shared_schema_path_twice :
    (run fsShared "/w" []).compilations = ["/w/s.json", "/w/s.json"] ∧
    ((run fsShared "/w" []).compilations.count "/w/s.json") = 2 :=
  ⟨by rfl, by rfl⟩

/-- The per-file branch never compiles a schema for the validation step
when the global validator is present. -/
theorem processFile_global (fs : FileSys) (v : CompiledValidator) (file : String) :
    processFile fs (some v) file = (validateJsonSchema fs file v, []) := rfl

/-- With a global validator, the loop contributes no compilations at all. -/
theorem flatten_comps_global (fs : FileSys) (v : CompiledValidator) :
    ∀ files : List String,
      ((files.map (processFile fs (some v))).map (fun st => st.2)).flatten = []
  | [] => rfl
  | f :: rest => by
    simp only [List.map_cons, List.flatten_cons, processFile_global]
    simpa using flatten_comps_global fs v rest

/-- C1 amended: the compilations of a run are fully characterized. With a
non-empty schema input that loads and compiles, exactly one compilation
happens, of the global schema path, however many documents are validated.
With an empty schema input, each document contributes the compilations of
its own validator selection, and each such selection compiles at most one
schema: so the schema behind N identical declarations is compiled once per
document, N times, not once per distinct path. -/
theorem run_schema_compilation_counts
    (fs : FileSys) (cwd : String) (inputs : Inputs) (sp : String)
    (hsp : getInput inputs "schema" = sp) :
    (sp ≠ "" → ∀ sj v, loadSchema fs sp = Except.ok sj → ajvCompile true sj = Except.ok v →
      (run fs cwd inputs).compilations =
        (if (findJsonFiles fs cwd (effFolder inputs)).length = 0 then [] else [sp])) ∧
    (sp = "" →
      (run fs cwd inputs).compilations =
        ((findJsonFiles fs cwd (effFolder inputs)).map
          (fun f => (processFile fs none f).2)).flatten) ∧
    (∀ gv f, ((selectValidator fs gv f).2).length ≤ 1) := by
  subst hsp
  refine ⟨?_, ?_, ?_⟩
  · intro hne sj v hl hc
    unfold run
    by_cases h0 : (findJsonFiles fs cwd (effFolder inputs)).length = 0
    · simp [h0]
    · rw [if_neg h0, if_neg hne]
      simp only [hl, hc]
      rw [if_neg h0]
      simp only [finishRun]
      rw [flatten_comps_global]
      rfl
  · intro h0
    unfold run
    by_cases hz : (findJsonFiles fs cwd (effFolder inputs)).length = 0
    · rw [if_pos hz]
      rw [List.length_eq_zero] at hz
      rw [hz]
      rfl
    · rw [if_neg hz, if_pos h0]
      simp only [finishRun, List.map_map]
      rfl
  · intro gv f
    rcases gv with _ | v
    · unfold selectValidator
      repeat' split
      all_goals simp
    · simp [selectValidator]

/-- C1 amended witness: at the shared-schema filesystem with no inputs the
schema input is empty and the compilations are exactly the per-document
contributions of the loop. -/
theorem run_schema_compilation_counts_witness :
    getInput ([] : Inputs) "schema" = "" ∧
    (run fsShared "/w" []).compilations =
      ((findJsonFiles fsShared "/w" (effFolder [])).map
        (fun f => (processFile fsShared none f).2)).flatten :=
  ⟨rfl, (run_schema_compilation_counts fsShared "/w" [] "" rfl).2.1 rfl⟩

/-- Filesystem with one syntactically broken JSON document. -/
def fsC2 : FileSys := [("/w/bad.json", "\x7b")]

/-- Inputs that disable failure on invalid files, per the documented
fail-on-invalid input. -/
def inputsC2 : Inputs := [("fail-on-invalid", "false")]

/-- C2 bug evidence: with the fail-on-invalid input bound to false and one
invalid document, the run still calls setFailed; run reads only the folder
and schema inputs, so the documented fail-on-invalid input can never make
an invalid run succeed. -/
theorem run_fails_despite_disabled_failure_input :
    getInput inputsC2 "fail-on-invalid" = "false" ∧
    (run fsC2 "/w" inputsC2).invalidOut = some 1 ∧
    (run fsC2 "/w" inputsC2).failedMsg = some "Found 1 invalid JSON file(s)" :=
  ⟨by rfl, by rfl, by rfl⟩

/-- Filesystem with one document under build and one under lib. -/
def fsC3 : FileSys := [("/w/build/a.json", "true"), ("/w/lib/b.json", "true")]

/-- Inputs overriding the ignore patterns to exclude build instead of the
defaults, per the documented ignore input. -/
def inputsC3 : Inputs := [("ignore", "**/build/**")]

/-- C3 bug evidence: with the ignore input overriding the defaults to
exclude build, the run still excludes the lib document (hardcoded default
kept, not replaced) and still includes the build document (override never
applied): findJsonFiles takes no ignore patterns and run never reads the
ignore input. -/
theorem run_ignores_custom_ignore_patterns :
    getInput inputsC3 "ignore" = "**/build/**" ∧
    (run fsC3 "/w" inputsC3).results.map (fun r => r.file) = ["/w/build/a.json"] ∧
    findJsonFiles fsC3 "/w" "." = ["/w/build/a.json"] :=
  ⟨by rfl, by rfl, by rfl⟩
